import Mathlib

/-
Verification of the statistical core of the analise_enatjus repository.

The embedded code comes from:
  * utils.py                 (intervalo_confianca_proporcao, processar_subconjunto)
  * 3 Divergencia por medicamentos/gerar_base_diferencas_medicamentos.py
                             (gerar_base_controle)
  * 3 Divergencia por medicamentos/analise_diferencas_medicamentos.py
                             (analisar_diferencas_entre_instituicoes, comparar_com_nacional)

Conventions of the embedding:
  * a pandas DataFrame row becomes a record structure; a DataFrame becomes a
    List of such records in row order;
  * float arithmetic is modelled as exact real arithmetic over ℝ (for the
    confidence-interval code, which uses math.sqrt) and over ℚ (for the
    percentage columns of the control base, which are rational by construction);
  * `Series.unique()` keeps the first occurrence of each value, modelled by
    `uniqueFirst`;
  * `DataFrame.groupby(keys)` iterates groups sorted ascending by key (the
    pandas default `sort=True`), each group holding its rows in original order;
    this is modelled by sorting the distinct keys with `List.insertionSort`
    under the lexicographic order `chaveLe` and filtering the row list per key.
-/

/-- Auxiliary recursion for `uniqueFirst`: `vistos` is the set of values already
emitted; a value is kept only at its first occurrence. -/
def uniqueFirstAux {α : Type} [DecidableEq α] : List α → List α → List α
  | _, [] => []
  | vistos, a :: l =>
    if a ∈ vistos then uniqueFirstAux vistos l
    else a :: uniqueFirstAux (a :: vistos) l

/-- Model of pandas `Series.unique()`: distinct values in first-occurrence order. -/
def uniqueFirst {α : Type} [DecidableEq α] (l : List α) : List α :=
  uniqueFirstAux [] l

theorem mem_uniqueFirstAux {α : Type} [DecidableEq α] (l : List α) :
    ∀ (vistos : List α) (a : α),
      a ∈ uniqueFirstAux vistos l ↔ a ∈ l ∧ a ∉ vistos := by
  induction l with
  | nil => intro vistos a; simp [uniqueFirstAux]
  | cons b l ih =>
    intro vistos a
    by_cases hb : b ∈ vistos
    · rw [uniqueFirstAux, if_pos hb, ih]
      constructor
      · rintro ⟨h1, h2⟩
        exact ⟨List.mem_cons_of_mem _ h1, h2⟩
      · rintro ⟨h1, h2⟩
        rcases List.mem_cons.mp h1 with rfl | h1
        · exact absurd hb h2
        · exact ⟨h1, h2⟩
    · rw [uniqueFirstAux, if_neg hb]
      constructor
      · intro h
        rcases List.mem_cons.mp h with rfl | h
        · exact ⟨List.mem_cons_self _ _, hb⟩
        · rcases (ih _ _).mp h with ⟨h1, h2⟩
          refine ⟨List.mem_cons_of_mem _ h1, fun hv => h2 (List.mem_cons_of_mem _ hv)⟩
      · rintro ⟨h1, h2⟩
        rcases List.mem_cons.mp h1 with rfl | h1
        · exact List.mem_cons_self _ _
        · by_cases hab : a = b
          · subst hab; exact List.mem_cons_self _ _
          · refine List.mem_cons_of_mem _ ((ih _ _).mpr ⟨h1, fun hv => ?_⟩)
            rcases List.mem_cons.mp hv with h | h
            · exact hab h
            · exact h2 h

theorem mem_uniqueFirst {α : Type} [DecidableEq α] {l : List α} {a : α} :
    a ∈ uniqueFirst l ↔ a ∈ l := by
  simp [uniqueFirst, mem_uniqueFirstAux]

/-- Row of the control base `controle_por_tratamento_e_por_CID.xlsx`, the input
of `analisar_diferencas_entre_instituicoes` and `comparar_com_nacional`.
`favoravel` holds the percentage column `Favorável` (a rational: a proportion
rounded to three decimals times 100). -/
structure RegControle where
  orgao : String
  tecnologia : String
  cid : String
  numPareceres : ℕ
  favoravel : ℚ
  naoFavoravel : ℚ
deriving DecidableEq, Inhabited

/-- Output row of `analisar_diferencas_entre_instituicoes`.  The source joins
the institutions tied at an extremum into a single "/"-separated string (and the
downstream concentration statistics split that string back on "/"); the record
here keeps the same information as the list of the joined names, in order. -/
structure DivergenciaRecord where
  tecnologia : String
  cid : String
  totalPareceres : ℕ
  orgaosMax : List String
  numsMax : List ℕ
  valorMax : ℚ
  orgaosMin : List String
  numsMin : List ℕ
  valorMin : ℚ
  diferenca : ℚ
deriving DecidableEq, Inhabited

/-- Output row of `comparar_com_nacional`. -/
structure ComparacaoRecord where
  medicamento : String
  cid : String
  instituicao : String
  instNumPareceres : ℕ
  instTaxa : ℚ
  nacionalNumPareceres : ℕ
  nacionalTaxa : ℚ
  melhor : String
  ganho : ℚ
deriving DecidableEq, Inhabited

/-- Model of pandas `Series.max()` on a rational column (0 on the empty list,
which the source never hits). -/
def maxQ : List ℚ → ℚ
  | [] => 0
  | x :: xs => xs.foldl max x

/-- Model of pandas `Series.min()` on a rational column. -/
def minQ : List ℚ → ℚ
  | [] => 0
  | x :: xs => xs.foldl min x

theorem foldl_max_init_le : ∀ (xs : List ℚ) (a : ℚ), a ≤ xs.foldl max a
  | [], a => le_refl a
  | x :: xs, a => le_trans (le_max_left a x) (foldl_max_init_le xs (max a x))

theorem le_foldl_max : ∀ (xs : List ℚ) (a : ℚ), ∀ x ∈ xs, x ≤ xs.foldl max a
  | [], _, x, hx => absurd hx (List.not_mem_nil x)
  | y :: xs, a, x, hx => by
    rcases List.mem_cons.mp hx with rfl | h
    · exact le_trans (le_max_right a x) (foldl_max_init_le xs _)
    · exact le_foldl_max xs _ x h

theorem foldl_max_cases : ∀ (xs : List ℚ) (a : ℚ), xs.foldl max a = a ∨ xs.foldl max a ∈ xs
  | [], _ => Or.inl rfl
  | y :: xs, a => by
    rcases foldl_max_cases xs (max a y) with h | h
    · rcases max_cases a y with ⟨he, _⟩ | ⟨he, _⟩
      · exact Or.inl (by rw [List.foldl_cons, h, he])
      · exact Or.inr (by rw [List.foldl_cons, h, he]; exact List.mem_cons_self _ _)
    · exact Or.inr (List.mem_cons_of_mem _ (by rw [List.foldl_cons]; exact h))

theorem foldl_min_le_init : ∀ (xs : List ℚ) (a : ℚ), xs.foldl min a ≤ a
  | [], a => le_refl a
  | x :: xs, a => le_trans (foldl_min_le_init xs (min a x)) (min_le_left a x)

theorem foldl_min_le : ∀ (xs : List ℚ) (a : ℚ), ∀ x ∈ xs, xs.foldl min a ≤ x
  | [], _, x, hx => absurd hx (List.not_mem_nil x)
  | y :: xs, a, x, hx => by
    rcases List.mem_cons.mp hx with rfl | h
    · exact le_trans (foldl_min_le_init xs _) (min_le_right a x)
    · exact foldl_min_le xs _ x h

theorem foldl_min_cases : ∀ (xs : List ℚ) (a : ℚ), xs.foldl min a = a ∨ xs.foldl min a ∈ xs
  | [], _ => Or.inl rfl
  | y :: xs, a => by
    rcases foldl_min_cases xs (min a y) with h | h
    · rcases min_cases a y with ⟨he, _⟩ | ⟨he, _⟩
      · exact Or.inl (by rw [List.foldl_cons, h, he])
      · exact Or.inr (by rw [List.foldl_cons, h, he]; exact List.mem_cons_self _ _)
    · exact Or.inr (List.mem_cons_of_mem _ (by rw [List.foldl_cons]; exact h))

theorem le_maxQ (l : List ℚ) : ∀ x ∈ l, x ≤ maxQ l := by
  cases l with
  | nil => intro x hx; exact absurd hx (List.not_mem_nil x)
  | cons y xs =>
    intro x hx
    rcases List.mem_cons.mp hx with rfl | h
    · exact foldl_max_init_le xs x
    · exact le_foldl_max xs y x h

theorem maxQ_mem {l : List ℚ} (h : l ≠ []) : maxQ l ∈ l := by
  cases l with
  | nil => exact absurd rfl h
  | cons y xs =>
    rcases foldl_max_cases xs y with h1 | h1
    · rw [maxQ, h1]; exact List.mem_cons_self _ _
    · exact List.mem_cons_of_mem _ h1

theorem minQ_le (l : List ℚ) : ∀ x ∈ l, minQ l ≤ x := by
  cases l with
  | nil => intro x hx; exact absurd hx (List.not_mem_nil x)
  | cons y xs =>
    intro x hx
    rcases List.mem_cons.mp hx with rfl | h
    · exact foldl_min_le_init xs x
    · exact foldl_min_le xs y x h

theorem minQ_mem {l : List ℚ} (h : l ≠ []) : minQ l ∈ l := by
  cases l with
  | nil => exact absurd rfl h
  | cons y xs =>
    rcases foldl_min_cases xs y with h1 | h1
    · rw [minQ, h1]; exact List.mem_cons_self _ _
    · exact List.mem_cons_of_mem _ h1

/-- Strict lexicographic comparison of character lists by code point, the
ordering Python applies to strings. -/
def charListLtB : List Char → List Char → Bool
  | _, [] => false
  | [], _ :: _ => true
  | a :: as, b :: bs => decide (a < b) || (decide (a = b) && charListLtB as bs)

theorem charListLtB_irrefl (as : List Char) : charListLtB as as = false := by
  induction as with
  | nil => rfl
  | cons a as ih => simp [charListLtB, ih]

theorem charListLtB_connex (as : List Char) :
    ∀ bs, charListLtB as bs = true ∨ charListLtB bs as = true ∨ as = bs := by
  induction as with
  | nil =>
    intro bs
    cases bs with
    | nil => exact Or.inr (Or.inr rfl)
    | cons b bs => exact Or.inl (by simp [charListLtB])
  | cons a as ih =>
    intro bs
    cases bs with
    | nil => exact Or.inr (Or.inl (by simp [charListLtB]))
    | cons b bs =>
      rcases lt_trichotomy a b with h | h | h
      · exact Or.inl (by simp [charListLtB, h])
      · subst h
        rcases ih bs with h1 | h1 | h1
        · exact Or.inl (by simp [charListLtB, h1])
        · exact Or.inr (Or.inl (by simp [charListLtB, h1]))
        · exact Or.inr (Or.inr (by rw [h1]))
      · exact Or.inr (Or.inl (by simp [charListLtB, h]))

theorem charListLtB_trans (as : List Char) :
    ∀ bs cs, charListLtB as bs = true → charListLtB bs cs = true →
      charListLtB as cs = true := by
  induction as with
  | nil =>
    intro bs cs h1 h2
    cases cs with
    | nil =>
      cases bs with
      | nil => simp [charListLtB] at h1
      | cons b bs => simp [charListLtB] at h2
    | cons c cs => simp [charListLtB]
  | cons a as ih =>
    intro bs cs h1 h2
    cases bs with
    | nil => simp [charListLtB] at h1
    | cons b bs =>
      cases cs with
      | nil => simp [charListLtB] at h2
      | cons c cs =>
        simp only [charListLtB, Bool.or_eq_true, Bool.and_eq_true,
          decide_eq_true_eq] at h1 h2 ⊢
        rcases h1 with h1 | ⟨rfl, h1⟩
        · rcases h2 with h2 | ⟨rfl, h2⟩
          · exact Or.inl (lt_trans h1 h2)
          · exact Or.inl h1
        · rcases h2 with h2 | ⟨rfl, h2⟩
          · exact Or.inl h2
          · exact Or.inr ⟨rfl, ih bs cs h1 h2⟩

/-- Boolean lexicographic order on the (Tecnologia, CID) group key: first key
component compared as Python compares strings, ties broken by the second. -/
def chaveLeB (a b : String × String) : Bool :=
  charListLtB a.1.data b.1.data ||
    (decide (a.1.data = b.1.data) &&
      (charListLtB a.2.data b.2.data || decide (a.2.data = b.2.data)))

theorem chaveLeB_total (a b : String × String) :
    chaveLeB a b = true ∨ chaveLeB b a = true := by
  rcases charListLtB_connex a.1.data b.1.data with h | h | h
  · exact Or.inl (by simp [chaveLeB, h])
  · exact Or.inr (by simp [chaveLeB, h])
  · rcases charListLtB_connex a.2.data b.2.data with h2 | h2 | h2
    · exact Or.inl (by simp [chaveLeB, h, h2])
    · exact Or.inr (by simp [chaveLeB, h.symm, h2])
    · exact Or.inl (by simp [chaveLeB, h, h2])

theorem chaveLeB_trans (a b c : String × String) (hab : chaveLeB a b = true)
    (hbc : chaveLeB b c = true) : chaveLeB a c = true := by
  simp only [chaveLeB, Bool.or_eq_true, Bool.and_eq_true,
    decide_eq_true_eq] at hab hbc ⊢
  rcases hab with h1 | ⟨e1, h1⟩
  · rcases hbc with h2 | ⟨e2, h2⟩
    · exact Or.inl (charListLtB_trans _ _ _ h1 h2)
    · exact Or.inl (e2 ▸ h1)
  · rcases hbc with h2 | ⟨e2, h2⟩
    · exact Or.inl (e1 ▸ h2)
    · refine Or.inr ⟨e1.trans e2, ?_⟩
      rcases h1 with h1 | h1
      · rcases h2 with h2 | h2
        · exact Or.inl (charListLtB_trans _ _ _ h1 h2)
        · exact Or.inl (h2 ▸ h1)
      · rcases h2 with h2 | h2
        · exact Or.inl (h1 ▸ h2)
        · exact Or.inr (h1.trans h2)

/-- Order in which pandas `groupby(['Tecnologia', 'CID'])` (with the default
`sort=True`) iterates its groups: ascending lexicographic order of the key. -/
def chaveLe (a b : String × String) : Prop := chaveLeB a b = true

instance : DecidableRel chaveLe := fun a b =>
  inferInstanceAs (Decidable (chaveLeB a b = true))

instance : IsTotal (String × String) chaveLe := ⟨chaveLeB_total⟩

instance : IsTrans (String × String) chaveLe := ⟨chaveLeB_trans⟩

/-- Group key of a control-base row, the pair (Tecnologia, CID). -/
def chaveDiv (r : RegControle) : String × String := (r.tecnologia, r.cid)

/-- Rows of `df` belonging to the group of key `k` (in original row order, as a
pandas groupby group holds them). -/
def grupoDe (df : List RegControle) (k : String × String) : List RegControle :=
  df.filter (fun r => decide (chaveDiv r = k))

/-- Model of `groupby(['Tecnologia','CID'])['Órgão de ATS'].nunique()` for one
group: the number of distinct institutions among its rows. -/
def nuniqueOrgaos (g : List RegControle) : ℕ :=
  (uniqueFirst (g.map (·.orgao))).length

/-- Favorable percentage of the first row of a group slice, modelling
`max_fav['Favorável'].iloc[0]` (0 on the empty slice, which the source never
hits). -/
def headFavoravel : List RegControle → ℚ
  | [] => 0
  | r :: _ => r.favoravel

/-- Body of the per-group loop of `analisar_diferencas_entre_instituicoes`
(lines 84-123): slice the rows achieving the maximum and the minimum of the
`Favorável` column, record the institutions and parecer counts of each slice
(the source "/"-joins them into one cell when there is a tie), the extremal
values taken from the first row of each slice, the group's total parecer count
and the max-minus-min difference. -/
def mkDivergencia (grupo : List RegControle) (tecnologia cid : String) : DivergenciaRecord :=
  let vMax := maxQ (grupo.map (·.favoravel))
  let vMin := minQ (grupo.map (·.favoravel))
  let maxFav := grupo.filter (fun r => decide (r.favoravel = vMax))
  let minFav := grupo.filter (fun r => decide (r.favoravel = vMin))
  let valorMax := headFavoravel maxFav
  let valorMin := headFavoravel minFav
  { tecnologia := tecnologia
    cid := cid
    totalPareceres := (grupo.map (·.numPareceres)).sum
    orgaosMax := maxFav.map (·.orgao)
    numsMax := maxFav.map (·.numPareceres)
    valorMax := valorMax
    orgaosMin := minFav.map (·.orgao)
    numsMin := minFav.map (·.numPareceres)
    valorMin := valorMin
    diferenca := valorMax - valorMin }

/-- Row filter applied by `analisar_diferencas_entre_instituicoes` before any
grouping (lines 63-66): drop the distinguished institution `Nacional` and every
row whose `Nº de pareceres` is below `min_pareceres`. -/
def validoBool (minPareceres : ℕ) (r : RegControle) : Bool :=
  decide (r.orgao ≠ "Nacional" ∧ minPareceres ≤ r.numPareceres)

/-- Core of `analisar_diferencas_entre_instituicoes` after the row filter
(lines 69-125): keep the (Tecnologia, CID) keys evaluated by at least two
distinct institutions, iterate them in the sorted order of the final groupby
and build one `DivergenciaRecord` per key. -/
def analisarNucleo (dfFiltrado : List RegControle) : List DivergenciaRecord :=
  let chaves := uniqueFirst (dfFiltrado.map chaveDiv)
  let chavesValidas := chaves.filter (fun k => decide (2 ≤ nuniqueOrgaos (grupoDe dfFiltrado k)))
  let chavesOrdenadas := List.insertionSort chaveLe chavesValidas
  chavesOrdenadas.map (fun k => mkDivergencia (grupoDe dfFiltrado k) k.1 k.2)

/-- Model of `analisar_diferencas_entre_instituicoes` (the returned `df_difs`):
filter out `Nacional` and the rows below `min_pareceres`, then run the grouped
analysis. -/
def analisarDiferencasEntreInstituicoes (dfBase : List RegControle) (minPareceres : ℕ) :
    List DivergenciaRecord :=
  analisarNucleo (dfBase.filter (validoBool minPareceres))

/-- Model of the full run of `analisar_diferencas_entre_instituicoes` including
its divergence-statistics block (lines 130-144): when `df_difs` is empty that
block faults (the column selection on a frame built from an empty list raises
KeyError, and the percentage logging divides by `len(df_difs) = 0`), so the
function only returns normally on a nonempty result. -/
def analisarDiferencasRun (dfBase : List RegControle) (minPareceres : ℕ) :
    Except String (List DivergenciaRecord) :=
  let dfDifs := analisarDiferencasEntreInstituicoes dfBase minPareceres
  if dfDifs.isEmpty then
    Except.error "divisao por len(df_difs) = 0 nas estatisticas de divergencia"
  else
    Except.ok dfDifs

/-- Model of `comparar_com_nacional` (lines 213-253): for each `Nacional` row,
pair it with every other institution's row sharing its (Tecnologia, CID); the
winner is `Nacional` exactly when the national rate is strictly greater, and
the gain is the absolute rate difference.  The statistics block of the source
(lines 261-305) is guarded by `if not df_comparacao.empty` and performs no
division by zero, so the function always returns its record list. -/
def compararComNacional (dfBase : List RegControle) : List ComparacaoRecord :=
  let dfNacional := dfBase.filter (fun r => decide (r.orgao = "Nacional"))
  dfNacional.flatMap (fun row =>
    let outrasInstData := dfBase.filter (fun r =>
      decide (r.tecnologia = row.tecnologia ∧ r.cid = row.cid ∧ r.orgao ≠ "Nacional"))
    outrasInstData.map (fun outra =>
      { medicamento := row.tecnologia
        cid := row.cid
        instituicao := outra.orgao
        instNumPareceres := outra.numPareceres
        instTaxa := outra.favoravel
        nacionalNumPareceres := row.numPareceres
        nacionalTaxa := row.favoravel
        melhor := if outra.favoravel < row.favoravel then "Nacional" else outra.orgao
        ganho := |row.favoravel - outra.favoravel| }))

/-- Model of `utils.intervalo_confianca_proporcao` (utils.py lines 164-185):
Wald confidence interval for a proportion.  Float arithmetic is modelled over
ℝ; the `n > 0` guard and the `(0, 0)` fallback mirror the source exactly, and
the bounds are returned unclamped. -/
noncomputable def intervaloConfiancaProporcao (p : ℝ) (n : ℕ) (z : ℝ) : ℝ × ℝ :=
  if 0 < n then
    let erroPadrao := Real.sqrt ((p * (1 - p)) / n)
    let margemErro := z * erroPadrao
    (p - margemErro, p + margemErro)
  else
    (0, 0)

/-- Default critical value `z = 1.96` of the source (95% confidence). -/
noncomputable def zPadrao : ℝ := 1.96

/-- Row of the opinion table as consumed by `utils.processar_subconjunto`:
the issuing institution (`origem_tratada`), the conclusion code
(`selConclusao`, with `F` = favorable) and the value of the generic filter
column `coluna` of the call. -/
structure Parecer where
  origemTratada : String
  selConclusao : String
  colVal : String
deriving DecidableEq, Inhabited

/-- Output row of `utils.processar_subconjunto`. -/
structure ResultadoInst where
  coluna : String
  orgao : String
  numPareceres : ℕ
  proporcaoFavoravel : ℝ
  icInferior : ℝ
  icSuperior : ℝ

/-- Subset of rows examined for institution `inst` by
`utils.processar_subconjunto`: all of the institution's rows when `geral`,
otherwise additionally restricted to filter-column value `valorFiltro`. -/
def subconjuntoInst (df : List Parecer) (inst valorFiltro : String) (geral : Bool) :
    List Parecer :=
  if geral then
    df.filter (fun r => decide (r.origemTratada = inst))
  else
    df.filter (fun r => decide (r.origemTratada = inst ∧ r.colVal = valorFiltro))

/-- Loop body of `utils.processar_subconjunto` for one institution (utils.py
lines 204-227): when the institution's subset has at least `min_observacoes`
rows, emit its favorable proportion with the Wald interval at the default `z`;
otherwise emit nothing. -/
noncomputable def resultadoInstOpt (df : List Parecer) (coluna valorFiltro : String)
    (minObservacoes : ℕ) (geral : Bool) (inst : String) : Option ResultadoInst :=
  let subset := subconjuntoInst df inst valorFiltro geral
  let qtdTotal := subset.length
  if minObservacoes ≤ qtdTotal then
    let favoravelCount := (subset.filter (fun r => decide (r.selConclusao = "F"))).length
    let proporcaoFavoravel : ℝ := if 0 < qtdTotal then (favoravelCount : ℝ) / qtdTotal else 0
    let ic := intervaloConfiancaProporcao proporcaoFavoravel qtdTotal zPadrao
    some { coluna := if geral then "Geral" else coluna
           orgao := inst
           numPareceres := qtdTotal
           proporcaoFavoravel := proporcaoFavoravel
           icInferior := ic.1
           icSuperior := ic.2 }
  else
    none

/-- Model of `utils.processar_subconjunto` (utils.py lines 188-229): iterate
the institutions in first-occurrence order and keep the results of those whose
subset reaches `min_observacoes`. -/
noncomputable def processarSubconjunto (df : List Parecer) (coluna valorFiltro : String)
    (minObservacoes : ℕ) (geral : Bool) : List ResultadoInst :=
  (uniqueFirst (df.map (·.origemTratada))).filterMap
    (resultadoInstOpt df coluna valorFiltro minObservacoes geral)

/-- Row of the prepared medication table consumed by `gerar_base_controle`
(gerar_base_diferencas_medicamentos.py): institution, normalized active
ingredient, simplified CID and conclusion code. -/
structure RegMed where
  origemTratada : String
  tecnologiaPrincipio : String
  cidSimplificado : String
  selConclusao : String
deriving DecidableEq, Inhabited

/-- Model of `pd.Series.value_counts(normalize=True).round(3) * 100` for one
conclusion value: the proportion rounded to three decimals, times 100.  The
pandas rounding is half-to-even while Mathlib's `round` is half-up; the two
differ only when the proportion is an exact odd multiple of 1/2000, which no
claim here touches. -/
def proporcaoPct (conta total : ℕ) : ℚ :=
  ((round (((conta : ℚ) / (total : ℚ)) * 1000) : ℤ) : ℚ) / 1000 * 100

/-- Rows of the (institution, ingredient, CID) cell: the `filtro` selection of
`gerar_base_controle` (gerar_base_diferencas_medicamentos.py lines 128-132),
which filters the full table by the conjunction of the three conditions. -/
def filtroTriplo (dfControle : List RegMed) (inst med cid : String) : List RegMed :=
  dfControle.filter (fun r =>
    decide (r.origemTratada = inst ∧ r.tecnologiaPrincipio = med ∧ r.cidSimplificado = cid))

/-- Innermost loop body of `gerar_base_controle` (lines 126-152): a cell is
materialized only when its row count is strictly greater than 10 (the source
comment and code both read `qtd_total > 10`), with the favorable and
unfavorable percentage columns. -/
def linhaControleOpt (dfControle : List RegMed) (inst med cid : String) : Option RegControle :=
  let filtro := filtroTriplo dfControle inst med cid
  let qtdTotal := filtro.length
  if 10 < qtdTotal then
    some { orgao := inst
           tecnologia := med
           cid := cid
           numPareceres := qtdTotal
           favoravel :=
             proporcaoPct (filtro.filter (fun r => decide (r.selConclusao = "F"))).length qtdTotal
           naoFavoravel :=
             proporcaoPct (filtro.filter (fun r => decide (r.selConclusao = "N"))).length qtdTotal }
  else
    none

/-- Model of `gerar_base_controle` (gerar_base_diferencas_medicamentos.py
lines 99-160): triple loop over the institutions, each institution's active
ingredients and each (institution, ingredient)'s CIDs, all in first-occurrence
order, materializing the qualifying cells. -/
def gerarBaseControle (dfControle : List RegMed) : List RegControle :=
  (uniqueFirst (dfControle.map (·.origemTratada))).flatMap (fun inst =>
    (uniqueFirst ((dfControle.filter
        (fun r => decide (r.origemTratada = inst))).map (·.tecnologiaPrincipio))).flatMap (fun med =>
      (uniqueFirst ((dfControle.filter
          (fun r => decide (r.origemTratada = inst ∧ r.tecnologiaPrincipio = med))).map
            (·.cidSimplificado))).filterMap (fun cid =>
        linhaControleOpt dfControle inst med cid)))

/- Helper lemmas about the divergence analysis, shared by several claims. -/

theorem mem_grupoDe {df : List RegControle} {k : String × String} {r : RegControle} :
    r ∈ grupoDe df k ↔ r ∈ df ∧ chaveDiv r = k := by
  simp [grupoDe]

theorem headFavoravel_filter_eq {g : List RegControle} {v : ℚ}
    (hne : g.filter (fun r => decide (r.favoravel = v)) ≠ []) :
    headFavoravel (g.filter (fun r => decide (r.favoravel = v))) = v := by
  cases hf : g.filter (fun r => decide (r.favoravel = v)) with
  | nil => exact absurd hf hne
  | cons x xs =>
    have hx : x ∈ g.filter (fun r => decide (r.favoravel = v)) := by
      rw [hf]; exact List.mem_cons_self _ _
    have hpx := List.of_mem_filter hx
    simp only [decide_eq_true_eq] at hpx
    simp [headFavoravel, hf, hpx]

theorem filter_fav_ne_nil {g : List RegControle} {v : ℚ}
    (hv : v ∈ g.map (·.favoravel)) :
    g.filter (fun r => decide (r.favoravel = v)) ≠ [] := by
  rcases List.mem_map.mp hv with ⟨r, hr, hrv⟩
  exact List.ne_nil_of_mem (List.mem_filter.mpr ⟨hr, by simp [hrv]⟩)

theorem mkDivergencia_diferenca (g : List RegControle) (t c : String) :
    (mkDivergencia g t c).diferenca =
      (mkDivergencia g t c).valorMax - (mkDivergencia g t c).valorMin := rfl

theorem mkDivergencia_valorMax {g : List RegControle} (t c : String) (hg : g ≠ []) :
    (mkDivergencia g t c).valorMax = maxQ (g.map (·.favoravel)) := by
  have hmem : maxQ (g.map (·.favoravel)) ∈ g.map (·.favoravel) :=
    maxQ_mem (by simpa using hg)
  exact headFavoravel_filter_eq (filter_fav_ne_nil hmem)

theorem mkDivergencia_valorMin {g : List RegControle} (t c : String) (hg : g ≠ []) :
    (mkDivergencia g t c).valorMin = minQ (g.map (·.favoravel)) := by
  have hmem : minQ (g.map (·.favoravel)) ∈ g.map (·.favoravel) :=
    minQ_mem (by simpa using hg)
  exact headFavoravel_filter_eq (filter_fav_ne_nil hmem)

theorem analisarNucleo_mem {dfF : List RegControle} {rec : DivergenciaRecord}
    (h : rec ∈ analisarNucleo dfF) :
    ∃ k : String × String, 2 ≤ nuniqueOrgaos (grupoDe dfF k) ∧ grupoDe dfF k ≠ [] ∧
      rec = mkDivergencia (grupoDe dfF k) k.1 k.2 := by
  unfold analisarNucleo at h
  rcases List.mem_map.mp h with ⟨k, hk, hrec⟩
  have hk2 := (List.perm_insertionSort chaveLe _).mem_iff.mp hk
  rcases List.mem_filter.mp hk2 with ⟨hk3, hk4⟩
  simp only [decide_eq_true_eq] at hk4
  rcases List.mem_map.mp (mem_uniqueFirst.mp hk3) with ⟨r, hr, hrk⟩
  refine ⟨k, hk4, List.ne_nil_of_mem (mem_grupoDe.mpr ⟨hr, hrk⟩), hrec.symm⟩

theorem validoBool_of_mem_filter {dfBase : List RegControle} {minPareceres : ℕ}
    {r : RegControle} (h : r ∈ dfBase.filter (validoBool minPareceres)) :
    r.orgao ≠ "Nacional" ∧ minPareceres ≤ r.numPareceres := by
  have := List.of_mem_filter h
  simpa [validoBool] using this

/-- Distinct institutions that qualify for the (Tecnologia, CID) key `k` under
`min_pareceres`: institutions of a non-`Nacional` row with at least
`min_pareceres` pareceres for that key. -/
def instituicoesQualificadas (dfBase : List RegControle) (minPareceres : ℕ)
    (k : String × String) : List String :=
  uniqueFirst ((grupoDe (dfBase.filter (validoBool minPareceres)) k).map (·.orgao))

/-- C6: every `DivergenciaRecord` produced by
`analisar_diferencas_entre_instituicoes` has `diferenca` equal to
`valorMax - valorMin`, the difference is nonnegative, and its
(Tecnologia, CID) pair has at least 2 distinct qualifying institutions, i.e.
institutions other than `Nacional` whose row for that pair has at least
`min_pareceres` pareceres. -/
theorem analisar_diferencas_invariantes (dfBase : List RegControle) (minPareceres : ℕ)
    (rec : DivergenciaRecord)
    (h : rec ∈ analisarDiferencasEntreInstituicoes dfBase minPareceres) :
    rec.diferenca = rec.valorMax - rec.valorMin ∧ 0 ≤ rec.diferenca ∧
      2 ≤ (instituicoesQualificadas dfBase minPareceres (rec.tecnologia, rec.cid)).length := by
  rcases analisarNucleo_mem h with ⟨k, hk2, hgne, hrec⟩
  have hdif := mkDivergencia_diferenca (grupoDe (dfBase.filter (validoBool minPareceres)) k) k.1 k.2
  have hvmax := mkDivergencia_valorMax (g := grupoDe (dfBase.filter (validoBool minPareceres)) k) k.1 k.2 hgne
  have hvmin := mkDivergencia_valorMin (g := grupoDe (dfBase.filter (validoBool minPareceres)) k) k.1 k.2 hgne
  have hminmax : minQ ((grupoDe (dfBase.filter (validoBool minPareceres)) k).map (·.favoravel)) ≤
      maxQ ((grupoDe (dfBase.filter (validoBool minPareceres)) k).map (·.favoravel)) := by
    have hne : (grupoDe (dfBase.filter (validoBool minPareceres)) k).map (·.favoravel) ≠ [] := by
      simpa using hgne
    exact minQ_le _ _ (maxQ_mem hne)
  subst hrec
  refine ⟨hdif, ?_, ?_⟩
  · rw [hdif, hvmax, hvmin]
    linarith
  · have hkey : ((mkDivergencia (grupoDe (dfBase.filter (validoBool minPareceres)) k) k.1 k.2).tecnologia,
        (mkDivergencia (grupoDe (dfBase.filter (validoBool minPareceres)) k) k.1 k.2).cid) = k := rfl
    rw [hkey]
    exact hk2

theorem mkDivergencia_orgaosMax (g : List RegControle) (t c : String) :
    (mkDivergencia g t c).orgaosMax =
      (g.filter (fun r => decide (r.favoravel = maxQ (g.map (·.favoravel))))).map (·.orgao) := rfl

theorem mkDivergencia_orgaosMin (g : List RegControle) (t c : String) :
    (mkDivergencia g t c).orgaosMin =
      (g.filter (fun r => decide (r.favoravel = minQ (g.map (·.favoravel))))).map (·.orgao) := rfl

/-- C3: the divergence ranker retains every tied institution at an extremum:
whenever a qualifying row (not `Nacional`, at least `min_pareceres` pareceres)
of the record's (Tecnologia, CID) pair attains the record's maximal (resp.
minimal) favorable rate, its institution appears in `orgaosMax` (resp.
`orgaosMin`), so ties are kept jointly rather than resolved to an arbitrary
single institution. -/
theorem analisar_diferencas_empates (dfBase : List RegControle) (minPareceres : ℕ)
    (rec : DivergenciaRecord)
    (h : rec ∈ analisarDiferencasEntreInstituicoes dfBase minPareceres)
    (r : RegControle) (hr : r ∈ dfBase) (hnac : r.orgao ≠ "Nacional")
    (hm : minPareceres ≤ r.numPareceres)
    (ht : r.tecnologia = rec.tecnologia) (hc : r.cid = rec.cid) :
    (r.favoravel = rec.valorMax → r.orgao ∈ rec.orgaosMax) ∧
    (r.favoravel = rec.valorMin → r.orgao ∈ rec.orgaosMin) := by
  rcases analisarNucleo_mem h with ⟨k, _, hgne, hrec⟩
  have hrF : r ∈ dfBase.filter (validoBool minPareceres) :=
    List.mem_filter.mpr ⟨hr, by simp [validoBool, hnac, hm]⟩
  have hkey : chaveDiv r = k := by
    have h1 : rec.tecnologia = k.1 := by rw [hrec]; rfl
    have h2 : rec.cid = k.2 := by rw [hrec]; rfl
    have h3 : chaveDiv r = (k.1, k.2) := by rw [chaveDiv, ht, hc, h1, h2]
    simpa using h3
  have hrg : r ∈ grupoDe (dfBase.filter (validoBool minPareceres)) k :=
    mem_grupoDe.mpr ⟨hrF, hkey⟩
  constructor
  · intro hfav
    have hvmax := mkDivergencia_valorMax
      (g := grupoDe (dfBase.filter (validoBool minPareceres)) k) k.1 k.2 hgne
    rw [hrec] at hfav ⊢
    rw [hvmax] at hfav
    rw [mkDivergencia_orgaosMax]
    exact List.mem_map.mpr ⟨r, List.mem_filter.mpr ⟨hrg, by simp [hfav]⟩, rfl⟩
  · intro hfav
    have hvmin := mkDivergencia_valorMin
      (g := grupoDe (dfBase.filter (validoBool minPareceres)) k) k.1 k.2 hgne
    rw [hrec] at hfav ⊢
    rw [hvmin] at hfav
    rw [mkDivergencia_orgaosMin]
    exact List.mem_map.mpr ⟨r, List.mem_filter.mpr ⟨hrg, by simp [hfav]⟩, rfl⟩

theorem filter_subsume {α : Type} (p q : α → Bool) (hpq : ∀ a, p a = true → q a = true)
    (l : List α) : (l.filter q).filter p = l.filter p := by
  rw [List.filter_filter]
  refine List.filter_congr ?_
  intro a _
  cases hp : p a with
  | false => simp
  | true => simp [hpq a hp]

theorem valido_filter_nacional (dfBase : List RegControle) (minPareceres : ℕ) :
    (dfBase.filter (fun r => decide (r.orgao ≠ "Nacional"))).filter (validoBool minPareceres) =
      dfBase.filter (validoBool minPareceres) := by
  refine filter_subsume _ _ (fun r hr => ?_) dfBase
  simp only [validoBool, decide_eq_true_eq] at hr ⊢
  exact hr.1

/-- C10: the divergence analysis drops the distinguished institution `Nacional`
before any grouping: no produced record lists `Nacional` among its extremal
institutions, and `Nacional` rows contribute nothing at all — pre-filtering
them out of the input leaves the entire output unchanged (so they are absent
from every group, including each record's total sample size). -/
theorem analisar_diferencas_exclui_nacional (dfBase : List RegControle) (minPareceres : ℕ) :
    (∀ rec ∈ analisarDiferencasEntreInstituicoes dfBase minPareceres,
        "Nacional" ∉ rec.orgaosMax ∧ "Nacional" ∉ rec.orgaosMin) ∧
      analisarDiferencasEntreInstituicoes dfBase minPareceres =
        analisarDiferencasEntreInstituicoes
          (dfBase.filter (fun r => decide (r.orgao ≠ "Nacional"))) minPareceres := by
  constructor
  · intro rec h
    rcases analisarNucleo_mem h with ⟨k, _, _, hrec⟩
    constructor
    · intro hmem
      rw [hrec, mkDivergencia_orgaosMax] at hmem
      rcases List.mem_map.mp hmem with ⟨r, hrf, hrn⟩
      have hrg := (List.mem_filter.mp hrf).1
      have hrdf := (mem_grupoDe.mp hrg).1
      exact (validoBool_of_mem_filter hrdf).1 hrn
    · intro hmem
      rw [hrec, mkDivergencia_orgaosMin] at hmem
      rcases List.mem_map.mp hmem with ⟨r, hrf, hrn⟩
      have hrg := (List.mem_filter.mp hrf).1
      have hrdf := (mem_grupoDe.mp hrg).1
      exact (validoBool_of_mem_filter hrdf).1 hrn
  · unfold analisarDiferencasEntreInstituicoes
    rw [valido_filter_nacional]

theorem map_chave_mkDivergencia (dfF : List RegControle) (ks : List (String × String)) :
    (ks.map (fun k => mkDivergencia (grupoDe dfF k) k.1 k.2)).map
      (fun rec => (rec.tecnologia, rec.cid)) = ks := by
  induction ks with
  | nil => rfl
  | cons k ks ih => simp only [List.map_cons, ih]; rfl

/-- C7 (amended): the records returned by
`analisar_diferencas_entre_instituicoes` are ordered ascending by the
(Tecnologia, CID) group key — the iteration order of the final pandas groupby —
not descending by spread. -/
theorem analisar_diferencas_ordenacao (dfBase : List RegControle) (minPareceres : ℕ) :
    List.Sorted chaveLe ((analisarDiferencasEntreInstituicoes dfBase minPareceres).map
      (fun rec => (rec.tecnologia, rec.cid))) := by
  simp only [analisarDiferencasEntreInstituicoes, analisarNucleo]
  rw [map_chave_mkDivergencia]
  exact List.sorted_insertionSort chaveLe _

/-- Concrete control base with a three-way tie group: institutions A and B at
100% favorable and C at 0%, all for the pair (t, c), each with 20 pareceres. -/
def baseEmpate : List RegControle :=
  [⟨"A", "t", "c", 20, 100, 0⟩, ⟨"B", "t", "c", 20, 100, 0⟩, ⟨"C", "t", "c", 20, 0, 100⟩]

/-- Record produced by the divergence analysis on `baseEmpate`. -/
def recEmpate : DivergenciaRecord :=
  ⟨"t", "c", 60, ["A", "B"], [20, 20], 100, ["C"], [20], 0, 100⟩

theorem baseEmpate_eval :
    analisarDiferencasEntreInstituicoes baseEmpate 10 = [recEmpate] := by
  have h : analisarDiferencasEntreInstituicoes baseEmpate 10 =
      [⟨"t", "c", 60, ["A", "B"], [20, 20], 100, ["C"], [20], 0, 100 - 0⟩] := rfl
  rw [h]
  norm_num [recEmpate]

/-- Witness for C3, at the spec's tie scenario: three institutions with rates
[100, 100, 0] for one (drug, diagnosis); both institutions at 100 appear in the
max-rate set. -/
theorem analisar_diferencas_empates_witness :
    ("A" : String) ∈ recEmpate.orgaosMax ∧ ("B" : String) ∈ recEmpate.orgaosMax := by
  have hmem : recEmpate ∈ analisarDiferencasEntreInstituicoes baseEmpate 10 := by
    rw [baseEmpate_eval]; exact List.mem_cons_self _ _
  constructor
  · exact (analisar_diferencas_empates baseEmpate 10 recEmpate hmem
      ⟨"A", "t", "c", 20, 100, 0⟩ (by simp [baseEmpate]) (by decide)
      (by norm_num) rfl rfl).1 rfl
  · exact (analisar_diferencas_empates baseEmpate 10 recEmpate hmem
      ⟨"B", "t", "c", 20, 100, 0⟩ (by simp [baseEmpate]) (by decide)
      (by norm_num) rfl rfl).1 rfl

/-- Witness for C6 on the concrete base `baseEmpate`. -/
theorem analisar_diferencas_invariantes_witness :
    recEmpate.diferenca = recEmpate.valorMax - recEmpate.valorMin ∧
      0 ≤ recEmpate.diferenca ∧
      2 ≤ (instituicoesQualificadas baseEmpate 10 (recEmpate.tecnologia, recEmpate.cid)).length :=
  analisar_diferencas_invariantes baseEmpate 10 recEmpate
    (by rw [baseEmpate_eval]; exact List.mem_cons_self _ _)

/-- Witness for C10 on the concrete base `baseEmpate`. -/
theorem analisar_diferencas_exclui_nacional_witness :
    ("Nacional" : String) ∉ recEmpate.orgaosMax ∧ ("Nacional" : String) ∉ recEmpate.orgaosMin :=
  (analisar_diferencas_exclui_nacional baseEmpate 10).1 recEmpate
    (by rw [baseEmpate_eval]; exact List.mem_cons_self _ _)

/-- Concrete control base yielding two groups whose groupby-ordered spreads are
[0, 50]: key (a, X) has both institutions at 30% (spread 0) and key (b, Y) has
50% versus 0% (spread 50). -/
def baseOrdem : List RegControle :=
  [⟨"A", "b", "Y", 20, 50, 50⟩, ⟨"B", "b", "Y", 20, 0, 100⟩,
   ⟨"A", "a", "X", 20, 30, 70⟩, ⟨"B", "a", "X", 20, 30, 70⟩]

theorem baseOrdem_eval :
    (analisarDiferencasEntreInstituicoes baseOrdem 10).map (·.diferenca) = [0, 50] := by
  have h : (analisarDiferencasEntreInstituicoes baseOrdem 10).map (·.diferenca) =
      [30 - 30, 50 - 0] := rfl
  rw [h]
  norm_num

/-- Counterexample for C7: on `baseOrdem` the returned spreads come out as
[0, 50] — the record with the larger spread is second — so the result sequence
is not ordered descending by spread. -/
theorem analisar_diferencas_ordenacao_contraexemplo :
    (analisarDiferencasEntreInstituicoes baseOrdem 10).map (·.diferenca) = [0, 50] ∧
      ¬ List.Sorted (· ≥ ·) ((analisarDiferencasEntreInstituicoes baseOrdem 10).map (·.diferenca)) := by
  refine ⟨baseOrdem_eval, ?_⟩
  rw [baseOrdem_eval]
  intro hsort
  have h50 := List.rel_of_sorted_cons hsort 50 (List.mem_cons_self _ _)
  norm_num at h50

/-- C8: on an empty control base the comparison analysis returns the empty
collection, but the divergence analysis does not return at all: with zero
produced records its statistics block faults (column lookup on an empty frame,
then a division by `len(df_difs) = 0`), modelled by the error branch of
`analisarDiferencasRun`. -/
theorem analises_entrada_vazia :
    analisarDiferencasRun [] 10 =
        Except.error "divisao por len(df_difs) = 0 nas estatisticas de divergencia" ∧
      compararComNacional [] = [] := ⟨rfl, rfl⟩

/-- C2: in every record produced by `comparar_com_nacional`, the winner
(`Melhor`) is `Nacional` exactly when the national rate is strictly greater
than the other institution's rate; on an exact tie the winner is the other
institution; and the gain is the absolute difference of the two rates. -/
theorem comparar_com_nacional_vencedor (dfBase : List RegControle) (rec : ComparacaoRecord)
    (h : rec ∈ compararComNacional dfBase) :
    (rec.melhor = "Nacional" ↔ rec.instTaxa < rec.nacionalTaxa) ∧
    (rec.nacionalTaxa = rec.instTaxa → rec.melhor = rec.instituicao) ∧
    rec.ganho = |rec.nacionalTaxa - rec.instTaxa| := by
  unfold compararComNacional at h
  rcases List.mem_flatMap.mp h with ⟨row, hrow, hmem⟩
  rcases List.mem_map.mp hmem with ⟨outra, houtra, hrec⟩
  have hout := List.of_mem_filter houtra
  simp only [decide_eq_true_eq] at hout
  obtain ⟨-, -, hnac⟩ := hout
  subst hrec
  refine ⟨?_, ?_, rfl⟩
  · show (if outra.favoravel < row.favoravel then "Nacional" else outra.orgao) = "Nacional" ↔
      outra.favoravel < row.favoravel
    split_ifs with hlt
    · simp [hlt]
    · simp [hlt, hnac]
  · intro heq
    show (if outra.favoravel < row.favoravel then "Nacional" else outra.orgao) = outra.orgao
    have heq2 : row.favoravel = outra.favoravel := heq
    rw [if_neg (by rw [heq2]; exact lt_irrefl _)]

/-- Concrete control base exercising the exact-tie boundary of the comparative
ranker: `Nacional` and institution A both at rate 80 for the pair (t, c). -/
def baseComparacao : List RegControle :=
  [⟨"Nacional", "t", "c", 50, 80, 20⟩, ⟨"A", "t", "c", 30, 80, 20⟩]

/-- Record produced by `comparar_com_nacional` on `baseComparacao`: the tie is
awarded to institution A, with gain 0. -/
def recComparacao : ComparacaoRecord := ⟨"t", "c", "A", 30, 80, 50, 80, "A", 0⟩

theorem baseComparacao_eval : compararComNacional baseComparacao = [recComparacao] := by
  have h : compararComNacional baseComparacao =
      [⟨"t", "c", "A", 30, 80, 50, 80, "A", |(80 : ℚ) - 80|⟩] := rfl
  rw [h]
  norm_num [recComparacao]

/-- Witness for C2 at the exact-tie boundary input `baseComparacao`. -/
theorem comparar_com_nacional_vencedor_witness :
    (recComparacao.melhor = "Nacional" ↔ recComparacao.instTaxa < recComparacao.nacionalTaxa) ∧
    (recComparacao.nacionalTaxa = recComparacao.instTaxa →
      recComparacao.melhor = recComparacao.instituicao) ∧
    recComparacao.ganho = |recComparacao.nacionalTaxa - recComparacao.instTaxa| :=
  comparar_com_nacional_vencedor baseComparacao recComparacao
    (by rw [baseComparacao_eval]; exact List.mem_cons_self _ _)

/-- C5: with sample size `n = 0` the estimator returns the guarded `(0, 0)`
branch — the function is total, so no division-by-zero (or any other) error can
occur on that input. -/
theorem intervalo_confianca_n_zero (p z : ℝ) :
    intervaloConfiancaProporcao p 0 z = (0, 0) := by
  simp [intervaloConfiancaProporcao]

/-- C4: whenever `n > 0` the estimator returns exactly the unclamped Wald pair
`(p - z * sqrt(p * (1 - p) / n), p + z * sqrt(p * (1 - p) / n))`, and the
bounds can indeed leave [0, 1]: at the valid input `p = 1/10` (1 favorable of
10) with the default `z` the lower bound is negative and returned as-is. -/
theorem intervalo_confianca_forma (p z : ℝ) (n : ℕ) (hn : 0 < n) :
    intervaloConfiancaProporcao p n z =
      (p - z * Real.sqrt ((p * (1 - p)) / n), p + z * Real.sqrt ((p * (1 - p)) / n)) ∧
      (intervaloConfiancaProporcao ((1 : ℝ) / 10) 10 zPadrao).1 < 0 := by
  constructor
  · simp [intervaloConfiancaProporcao, hn]
  · have h1 : intervaloConfiancaProporcao ((1 : ℝ) / 10) 10 zPadrao =
        ((1 : ℝ) / 10 - zPadrao * Real.sqrt (((1 : ℝ) / 10 * (1 - 1 / 10)) / (10 : ℕ)),
         (1 : ℝ) / 10 + zPadrao * Real.sqrt (((1 : ℝ) / 10 * (1 - 1 / 10)) / (10 : ℕ))) := by
      simp [intervaloConfiancaProporcao]
    have hsq : (5 / 98 : ℝ) < Real.sqrt (((1 : ℝ) / 10 * (1 - 1 / 10)) / (10 : ℕ)) := by
      have h9 : (((1 : ℝ) / 10 * (1 - 1 / 10)) / (10 : ℕ)) = 9 / 1000 := by norm_num
      rw [h9, show ((5 / 98 : ℝ) < Real.sqrt (9 / 1000)) = ((5 / 98 : ℝ) < √(9 / 1000)) from rfl]
      rw [Real.lt_sqrt (by norm_num)]
      norm_num
    have hz : (0 : ℝ) < zPadrao := by norm_num [zPadrao]
    have h2 : zPadrao * (5 / 98 : ℝ) <
        zPadrao * Real.sqrt (((1 : ℝ) / 10 * (1 - 1 / 10)) / (10 : ℕ)) :=
      mul_lt_mul_of_pos_left hsq hz
    have h3 : zPadrao * (5 / 98 : ℝ) = 1 / 10 := by norm_num [zPadrao]
    rw [h1]
    show (1 : ℝ) / 10 - zPadrao * Real.sqrt (((1 : ℝ) / 10 * (1 - 1 / 10)) / (10 : ℕ)) < 0
    linarith

/-- Witness for C4 at the concrete call `p = 1/2`, `n = 10`, default `z`. -/
theorem intervalo_confianca_forma_witness :
    0 < 10 ∧
      (intervaloConfiancaProporcao ((1 : ℝ) / 2) 10 zPadrao =
        ((1 : ℝ) / 2 - zPadrao * Real.sqrt (((1 : ℝ) / 2 * (1 - 1 / 2)) / (10 : ℕ)),
         (1 : ℝ) / 2 + zPadrao * Real.sqrt (((1 : ℝ) / 2 * (1 - 1 / 2)) / (10 : ℕ))) ∧
        (intervaloConfiancaProporcao ((1 : ℝ) / 10) 10 zPadrao).1 < 0) :=
  ⟨by norm_num, intervalo_confianca_forma ((1 : ℝ) / 2) zPadrao 10 (by norm_num)⟩

/-- C9: for integer inputs `0 ≤ favorableCount ≤ n` with `n > 0` (and a
nonnegative critical value, as the default 1.96 is), the point estimate
`p = favorableCount / n` lies in [0, 1], the margin is nonnegative, and the
returned interval brackets `p`. -/
theorem intervalo_confianca_cobertura (favorableCount n : ℕ) (z : ℝ)
    (hfn : favorableCount ≤ n) (hn : 0 < n) (hz : 0 ≤ z) :
    0 ≤ (favorableCount : ℝ) / n ∧ (favorableCount : ℝ) / n ≤ 1 ∧
      0 ≤ z * Real.sqrt ((((favorableCount : ℝ) / n) * (1 - (favorableCount : ℝ) / n)) / n) ∧
      (intervaloConfiancaProporcao ((favorableCount : ℝ) / n) n z).1 ≤ (favorableCount : ℝ) / n ∧
      (favorableCount : ℝ) / n ≤ (intervaloConfiancaProporcao ((favorableCount : ℝ) / n) n z).2 := by
  have hn' : (0 : ℝ) < n := by exact_mod_cast hn
  have hp0 : 0 ≤ (favorableCount : ℝ) / n :=
    div_nonneg (Nat.cast_nonneg favorableCount) (le_of_lt hn')
  have hp1 : (favorableCount : ℝ) / n ≤ 1 := by
    rw [div_le_one hn']
    exact_mod_cast hfn
  have hm : 0 ≤ z * Real.sqrt ((((favorableCount : ℝ) / n) * (1 - (favorableCount : ℝ) / n)) / n) :=
    mul_nonneg hz (Real.sqrt_nonneg _)
  have hint : intervaloConfiancaProporcao ((favorableCount : ℝ) / n) n z =
      ((favorableCount : ℝ) / n -
          z * Real.sqrt ((((favorableCount : ℝ) / n) * (1 - (favorableCount : ℝ) / n)) / n),
        (favorableCount : ℝ) / n +
          z * Real.sqrt ((((favorableCount : ℝ) / n) * (1 - (favorableCount : ℝ) / n)) / n)) := by
    simp [intervaloConfiancaProporcao, hn]
  rw [hint]
  refine ⟨hp0, hp1, hm, ?_, ?_⟩
  · show (favorableCount : ℝ) / n -
        z * Real.sqrt ((((favorableCount : ℝ) / n) * (1 - (favorableCount : ℝ) / n)) / n) ≤
      (favorableCount : ℝ) / n
    linarith
  · show (favorableCount : ℝ) / n ≤ (favorableCount : ℝ) / n +
        z * Real.sqrt ((((favorableCount : ℝ) / n) * (1 - (favorableCount : ℝ) / n)) / n)
    linarith

/-- Witness for C9 at the concrete call `favorableCount = 1`, `n = 2`,
`z = 1.96`. -/
theorem intervalo_confianca_cobertura_witness :
    (1 ≤ 2 ∧ 0 < 2 ∧ (0 : ℝ) ≤ zPadrao) ∧
      (0 ≤ ((1 : ℕ) : ℝ) / ((2 : ℕ) : ℝ) ∧ ((1 : ℕ) : ℝ) / ((2 : ℕ) : ℝ) ≤ 1 ∧
        0 ≤ zPadrao * Real.sqrt (((((1 : ℕ) : ℝ) / ((2 : ℕ) : ℝ)) *
              (1 - ((1 : ℕ) : ℝ) / ((2 : ℕ) : ℝ))) / ((2 : ℕ) : ℝ)) ∧
        (intervaloConfiancaProporcao (((1 : ℕ) : ℝ) / ((2 : ℕ) : ℝ)) 2 zPadrao).1 ≤
          ((1 : ℕ) : ℝ) / ((2 : ℕ) : ℝ) ∧
        ((1 : ℕ) : ℝ) / ((2 : ℕ) : ℝ) ≤
          (intervaloConfiancaProporcao (((1 : ℕ) : ℝ) / ((2 : ℕ) : ℝ)) 2 zPadrao).2) :=
  ⟨⟨by norm_num, by norm_num, by norm_num [zPadrao]⟩,
    intervalo_confianca_cobertura 1 2 zPadrao (by norm_num) (by norm_num) (by norm_num [zPadrao])⟩

/- Helper lemmas about the two aggregators, for C1. -/

theorem resultadoInstOpt_some {df : List Parecer} {coluna valorFiltro : String}
    {minObservacoes : ℕ} {geral : Bool} {inst : String} {rec : ResultadoInst}
    (h : resultadoInstOpt df coluna valorFiltro minObservacoes geral inst = some rec) :
    rec.orgao = inst ∧ minObservacoes ≤ (subconjuntoInst df inst valorFiltro geral).length := by
  by_cases hq : minObservacoes ≤ (subconjuntoInst df inst valorFiltro geral).length
  · refine ⟨?_, hq⟩
    simp only [resultadoInstOpt, if_pos hq, Option.some.injEq] at h
    rw [← h]
  · simp only [resultadoInstOpt, if_neg hq] at h
    exact absurd h (by simp)

theorem resultadoInstOpt_isSome {df : List Parecer} {coluna valorFiltro : String}
    {minObservacoes : ℕ} {geral : Bool} {inst : String}
    (hq : minObservacoes ≤ (subconjuntoInst df inst valorFiltro geral).length) :
    (resultadoInstOpt df coluna valorFiltro minObservacoes geral inst).isSome = true := by
  simp only [resultadoInstOpt, if_pos hq, Option.isSome_some]

theorem linhaControleOpt_some {dfC : List RegMed} {inst med cid : String} {rec : RegControle}
    (h : linhaControleOpt dfC inst med cid = some rec) :
    rec.orgao = inst ∧ rec.tecnologia = med ∧ rec.cid = cid ∧
      10 < (filtroTriplo dfC inst med cid).length := by
  by_cases hq : 10 < (filtroTriplo dfC inst med cid).length
  · refine ⟨?_, ?_, ?_, hq⟩ <;>
      · simp only [linhaControleOpt, if_pos hq, Option.some.injEq] at h
        rw [← h]
  · simp only [linhaControleOpt, if_neg hq] at h
    exact absurd h (by simp)

theorem linhaControleOpt_isSome {dfC : List RegMed} {inst med cid : String}
    (hq : 10 < (filtroTriplo dfC inst med cid).length) :
    (linhaControleOpt dfC inst med cid).isSome = true := by
  simp only [linhaControleOpt, if_pos hq, Option.isSome_some]

/-- C1 (amended): the two aggregators use different threshold comparisons.
`processar_subconjunto` materializes an institution's partition exactly when
its size reaches `min_observacoes` (boundary retained), while
`gerar_base_controle` materializes an (institution, ingredient, CID) cell
exactly when its size strictly exceeds 10 — so there a partition of exactly
`min_sample_size = 10` rows is discarded, not retained. -/
theorem agregadores_limiar (df : List Parecer) (coluna valorFiltro : String)
    (minObservacoes : ℕ) (geral : Bool) (inst : String)
    (hinst : inst ∈ uniqueFirst (df.map (·.origemTratada)))
    (dfC : List RegMed) (instM med cid : String) :
    ((∃ rec ∈ processarSubconjunto df coluna valorFiltro minObservacoes geral,
        rec.orgao = inst) ↔
      minObservacoes ≤ (subconjuntoInst df inst valorFiltro geral).length) ∧
    ((∃ rec ∈ gerarBaseControle dfC,
        rec.orgao = instM ∧ rec.tecnologia = med ∧ rec.cid = cid) ↔
      10 < (filtroTriplo dfC instM med cid).length) := by
  constructor
  · constructor
    · rintro ⟨rec, hrec, horg⟩
      rcases List.mem_filterMap.mp hrec with ⟨inst2, _, hf⟩
      rcases resultadoInstOpt_some hf with ⟨horg2, hq⟩
      rw [horg2.symm.trans horg] at hq
      exact hq
    · intro hq
      rcases Option.isSome_iff_exists.mp
        (@resultadoInstOpt_isSome df coluna valorFiltro minObservacoes geral inst hq)
        with ⟨rec, hf⟩
      exact ⟨rec, List.mem_filterMap.mpr ⟨inst, hinst, hf⟩, (resultadoInstOpt_some hf).1⟩
  · constructor
    · rintro ⟨rec, hrec, horg, htec, hcid⟩
      unfold gerarBaseControle at hrec
      rcases List.mem_flatMap.mp hrec with ⟨inst2, _, h2⟩
      rcases List.mem_flatMap.mp h2 with ⟨med2, _, h3⟩
      rcases List.mem_filterMap.mp h3 with ⟨cid2, _, hf⟩
      rcases linhaControleOpt_some hf with ⟨ho, ht, hc, hq⟩
      rw [ho.symm.trans horg, ht.symm.trans htec, hc.symm.trans hcid] at hq
      exact hq
    · intro hq
      have hne : filtroTriplo dfC instM med cid ≠ [] := by
        intro he
        rw [he] at hq
        simp at hq
      rcases List.exists_mem_of_ne_nil _ hne with ⟨r0, hr0⟩
      rcases List.mem_filter.mp hr0 with ⟨hr0df, hr0p⟩
      simp only [decide_eq_true_eq] at hr0p
      obtain ⟨h0i, h0m, h0c⟩ := hr0p
      rcases Option.isSome_iff_exists.mp (linhaControleOpt_isSome hq) with ⟨rec, hf⟩
      rcases linhaControleOpt_some hf with ⟨ho, ht, hc, _⟩
      refine ⟨rec, ?_, ho, ht, hc⟩
      unfold gerarBaseControle
      refine List.mem_flatMap.mpr ⟨instM, mem_uniqueFirst.mpr
        (List.mem_map.mpr ⟨r0, hr0df, h0i⟩), ?_⟩
      refine List.mem_flatMap.mpr ⟨med, mem_uniqueFirst.mpr
        (List.mem_map.mpr ⟨r0, List.mem_filter.mpr ⟨hr0df, by simp [h0i]⟩, h0m⟩), ?_⟩
      exact List.mem_filterMap.mpr ⟨cid, mem_uniqueFirst.mpr
        (List.mem_map.mpr ⟨r0, List.mem_filter.mpr ⟨hr0df, by simp [h0i, h0m]⟩, h0c⟩), hf⟩

/-- Control-base input whose single (institution, ingredient, CID) partition
has exactly 10 rows — the boundary case of the configured minimum. -/
def dezLinhasMed : List RegMed := List.replicate 10 ⟨"A", "med", "C10", "F"⟩

/-- Counterexample for C1: the boundary partition of exactly
`min_sample_size = 10` records is not materialized by `gerar_base_controle`
(its threshold is the strict `qtd_total > 10`), so "total = min_sample_size is
retained" fails on the code. -/
theorem agregadores_limiar_contraexemplo :
    (filtroTriplo dezLinhasMed "A" "med" "C10").length = 10 ∧
      gerarBaseControle dezLinhasMed = [] := ⟨rfl, rfl⟩

/-- Opinion table for the C1 witness: twelve favorable opinions of one
institution. -/
def basePareceres : List Parecer := List.replicate 12 ⟨"A", "F", "v"⟩

/-- Witness for C1 (amended) at concrete inputs on both aggregators. -/
theorem agregadores_limiar_witness :
    ("A" ∈ uniqueFirst (basePareceres.map (·.origemTratada))) ∧
      (((∃ rec ∈ processarSubconjunto basePareceres "col" "v" 10 true,
          rec.orgao = "A") ↔
        10 ≤ (subconjuntoInst basePareceres "A" "v" true).length) ∧
      ((∃ rec ∈ gerarBaseControle dezLinhasMed,
          rec.orgao = "A" ∧ rec.tecnologia = "med" ∧ rec.cid = "C10") ↔
        10 < (filtroTriplo dezLinhasMed "A" "med" "C10").length)) :=
  ⟨by decide,
    agregadores_limiar basePareceres "col" "v" 10 true "A" (by decide)
      dezLinhasMed "A" "med" "C10"⟩
